import Mathlib

/-
Verification of the breakout-style game core of `itcpp2015` (file
`code/p11.cpp`, the final iteration of the tutorial).

Modelling conventions:
* `float` values are embedded as exact rationals (ℚ).  All arithmetic used
  by the game logic (+, -, *, /, abs, comparisons) is exact on ℚ; the float
  literal `0.05f` is idealised as `1/20`.
* The one non-rational operation, `std::sqrt` inside `getNormalized`, is
  embedded over ℝ (`Real.sqrt`).  The game code only ever uses
  `getReflected(v, getNormalized(c))`; that composition is an exact rational
  function of `v` and `c` (the two occurrences of the square root cancel),
  which is proved below (`getReflected_getNormalized_eq`), so the collision
  code itself stays on ℚ and is executable.
* SFML shape wrappers (`Rectangle`, `Circle`) keep only the fields the game
  reads: center position and extent.  Colors and rendering are dropped.
-/

namespace Arkanoid

/-- Generic 2D vector, mirroring `sf::Vector2<T>`. -/
structure Vec2 (α : Type) where
  x : α
  y : α
deriving DecidableEq

/-- Embeds `getDotProduct` from p11.cpp (line 29): `a.x*b.x + a.y*b.y`. -/
def getDotProduct {α : Type} [CommRing α] (a b : Vec2 α) : α :=
  a.x * b.x + a.y * b.y

/-- Embeds `getLength` (line 17): `sqrt(x^2 + y^2)` over the reals. -/
noncomputable def getLength (v : Vec2 ℝ) : ℝ :=
  Real.sqrt (v.x ^ 2 + v.y ^ 2)

/-- Embeds `getNormalized` (line 23): componentwise division by the length. -/
noncomputable def getNormalized (v : Vec2 ℝ) : Vec2 ℝ :=
  ⟨v.x / getLength v, v.y / getLength v⟩

/-- Embeds `getReflected` (line 35): `v - n * (2 * dot(v, n))`. -/
def getReflected {α : Type} [CommRing α] (v n : Vec2 α) : Vec2 α :=
  ⟨v.x - n.x * (2 * getDotProduct v n), v.y - n.y * (2 * getDotProduct v n)⟩

/-- The composition `getReflected v (getNormalized c)` used by the paddle
collision code, written as the exact rational expression it equals (the
square root cancels: `n = c / sqrt(c·c)` gives
`v - c * (2 (v·c) / (c·c))`).  Faithfulness to the source composition is
`getReflected_getNormalized_eq` below. -/
def getReflectedNormalized (v c : Vec2 ℚ) : Vec2 ℚ :=
  ⟨v.x - c.x * (2 * getDotProduct v c / getDotProduct c c),
   v.y - c.y * (2 * getDotProduct v c / getDotProduct c c)⟩

/-- Cast a rational vector to a real vector. -/
def vecCast (v : Vec2 ℚ) : Vec2 ℝ := ⟨(v.x : ℝ), (v.y : ℝ)⟩

/-! ### Field bounds and the intersection test -/

/-- Embeds the global constant `wndWidth` (800). -/
def wndWidth : ℚ := 800

/-- Embeds the global constant `wndHeight` (600). -/
def wndHeight : ℚ := 600

/-- The four edge accessors every shape wrapper exposes; `isIntersecting`
only reads these. -/
structure Bounds where
  left : ℚ
  right : ℚ
  top : ℚ
  bottom : ℚ

/-- Embeds `isIntersecting` (lines 40-45):
`A.right >= B.left && A.left <= B.right && A.bottom >= B.top && A.top <= B.bottom`. -/
def isIntersecting (a b : Bounds) : Prop :=
  a.right ≥ b.left ∧ a.left ≤ b.right ∧ a.bottom ≥ b.top ∧ a.top ≤ b.bottom

instance (a b : Bounds) : Decidable (isIntersecting a b) := by
  unfold isIntersecting; infer_instance

/-- Embeds the `Rectangle` wrapper (lines 126-138): center position plus
size, edges derived from them. -/
structure Rectangle where
  x : ℚ
  y : ℚ
  width : ℚ
  height : ℚ

def Rectangle.left (r : Rectangle) : ℚ := r.x - r.width / 2

def Rectangle.right (r : Rectangle) : ℚ := r.x + r.width / 2

def Rectangle.top (r : Rectangle) : ℚ := r.y - r.height / 2

def Rectangle.bottom (r : Rectangle) : ℚ := r.y + r.height / 2

def Rectangle.bounds (r : Rectangle) : Bounds :=
  ⟨r.left, r.right, r.top, r.bottom⟩

/-- Embeds the `Circle` wrapper (lines 140-151): center plus radius, edges
are those of the bounding square. -/
structure Circle where
  x : ℚ
  y : ℚ
  radius : ℚ

def Circle.left (c : Circle) : ℚ := c.x - c.radius

def Circle.right (c : Circle) : ℚ := c.x + c.radius

def Circle.top (c : Circle) : ℚ := c.y - c.radius

def Circle.bottom (c : Circle) : ℚ := c.y + c.radius

def Circle.bounds (c : Circle) : Bounds :=
  ⟨c.left, c.right, c.top, c.bottom⟩

/-- A shape is either a rectangle or a circle; the template
`isIntersecting` is instantiated in p11.cpp only at these two wrappers. -/
inductive Shape where
  | rect (r : Rectangle)
  | circ (c : Circle)

def Shape.bounds : Shape → Bounds
  | .rect r => r.bounds
  | .circ c => c.bounds

/-- The intersection test between two shapes, as the game calls it. -/
def intersectsShape (s t : Shape) : Prop :=
  isIntersecting s.bounds t.bounds

/-! ### Ball (lines 153-191) -/

/-- Embeds the `Ball` entity: a `Circle` plus the `Entity` destroyed flag
and a velocity vector. -/
structure Ball where
  x : ℚ
  y : ℚ
  radius : ℚ
  velocity : Vec2 ℚ
  destroyed : Bool
deriving DecidableEq

/-- Embeds `Ball::defRadius` (10) and `Ball::defVelocity` (8). -/
def Ball.defRadius : ℚ := 10

def Ball.defVelocity : ℚ := 8

/-- Embeds the `Ball` constructor (line 161): position as given, radius
`defRadius`, initial velocity `(-defVelocity, -defVelocity)`. -/
def Ball.create (mX mY : ℚ) : Ball :=
  { x := mX, y := mY, radius := Ball.defRadius
    velocity := ⟨-Ball.defVelocity, -Ball.defVelocity⟩
    destroyed := false }

def Ball.left (b : Ball) : ℚ := b.x - b.radius

def Ball.right (b : Ball) : ℚ := b.x + b.radius

def Ball.top (b : Ball) : ℚ := b.y - b.radius

def Ball.bottom (b : Ball) : ℚ := b.y + b.radius

def Ball.bounds (b : Ball) : Bounds := ⟨b.left, b.right, b.top, b.bottom⟩

/-- The `shape.move(velocity)` step of `Ball::update` (line 171). -/
def Ball.move (b : Ball) : Ball :=
  { b with x := b.x + b.velocity.x, y := b.y + b.velocity.y }

/-- Embeds `Ball::solveBoundCollisions` (lines 181-190): flip `velocity.x`
when outside a side bound; then either flip `velocity.y` (top bound) or,
else-if the bottom was crossed, mark the ball destroyed. -/
def Ball.solveBoundCollisions (b : Ball) : Ball :=
  let b1 := if b.left < 0 ∨ b.right > wndWidth then
      { b with velocity := ⟨b.velocity.x * (-1), b.velocity.y⟩ }
    else b
  if b1.top < 0 then { b1 with velocity := ⟨b1.velocity.x, b1.velocity.y * (-1)⟩ }
  else if b1.bottom > wndHeight then { b1 with destroyed := true }
  else b1

/-- Embeds `Ball::update` (lines 169-173): move, then solve bound
collisions. -/
def Ball.update (b : Ball) : Ball :=
  b.move.solveBoundCollisions

/-! ### Paddle (lines 195-232) -/

/-- Embeds the `Paddle` entity: a `Rectangle` plus destroyed flag and
velocity. -/
structure Paddle where
  x : ℚ
  y : ℚ
  width : ℚ
  height : ℚ
  velocity : Vec2 ℚ
  destroyed : Bool
deriving DecidableEq

def Paddle.defWidth : ℚ := 75

def Paddle.defHeight : ℚ := 20

def Paddle.defVelocity : ℚ := 8

/-- Embeds the `Paddle` constructor (line 204): position as given, size
`defWidth x defHeight`, zero-initialised velocity. -/
def Paddle.create (mX mY : ℚ) : Paddle :=
  { x := mX, y := mY, width := Paddle.defWidth, height := Paddle.defHeight
    velocity := ⟨0, 0⟩, destroyed := false }

def Paddle.left (p : Paddle) : ℚ := p.x - p.width / 2

def Paddle.right (p : Paddle) : ℚ := p.x + p.width / 2

def Paddle.top (p : Paddle) : ℚ := p.y - p.height / 2

def Paddle.bottom (p : Paddle) : ℚ := p.y + p.height / 2

def Paddle.bounds (p : Paddle) : Bounds := ⟨p.left, p.right, p.top, p.bottom⟩

/-- Embeds `Paddle::processPlayerInput` (lines 224-231).  The two booleans
are the key-down states of the left and right arrow keys. -/
def Paddle.processPlayerInput (leftKey rightKey : Bool) (p : Paddle) : Paddle :=
  if leftKey ∧ p.left > 0 then
    { p with velocity := ⟨-Paddle.defVelocity, p.velocity.y⟩ }
  else if rightKey ∧ p.right < wndWidth then
    { p with velocity := ⟨Paddle.defVelocity, p.velocity.y⟩ }
  else
    { p with velocity := ⟨0, p.velocity.y⟩ }

/-- Embeds `Paddle::update` (lines 212-216): process input, then move. -/
def Paddle.update (leftKey rightKey : Bool) (p : Paddle) : Paddle :=
  let p1 := p.processPlayerInput leftKey rightKey
  { p1 with x := p1.x + p1.velocity.x, y := p1.y + p1.velocity.y }

/-! ### Brick (lines 236-267) -/

/-- Embeds the `Brick` entity: a `Rectangle` plus destroyed flag and the
`requiredHits` counter. -/
structure Brick where
  x : ℚ
  y : ℚ
  width : ℚ
  height : ℚ
  requiredHits : ℤ
  destroyed : Bool
deriving DecidableEq

def Brick.defWidth : ℚ := 60

def Brick.defHeight : ℚ := 20

/-- Embeds the `Brick` constructor (line 248): position as given, size
`defWidth x defHeight`, `requiredHits` default-initialised to 1. -/
def Brick.create (mX mY : ℚ) : Brick :=
  { x := mX, y := mY, width := Brick.defWidth, height := Brick.defHeight
    requiredHits := 1, destroyed := false }

def Brick.left (b : Brick) : ℚ := b.x - b.width / 2

def Brick.right (b : Brick) : ℚ := b.x + b.width / 2

def Brick.top (b : Brick) : ℚ := b.y - b.height / 2

def Brick.bottom (b : Brick) : ℚ := b.y + b.height / 2

def Brick.bounds (b : Brick) : Bounds := ⟨b.left, b.right, b.top, b.bottom⟩

/-- Embeds `Brick::update` (lines 255-262): it only recolors the shape from
`requiredHits`, so on the modelled state it is the identity. -/
def Brick.update (b : Brick) : Brick := b

/-! ### Collision resolution (lines 273-312) -/

/-- The `posFactor` quantity computed by `solvePaddleBallCollision`
(lines 280-281): the paddle-to-ball center distance divided by the paddle
width. -/
def posFactorOf (p : Paddle) (b : Ball) : ℚ := (b.x - p.x) / p.width

/-- Embeds `solvePaddleBallCollision` (lines 273-286).  The paddle is taken
by const reference in the source, so only the new ball is returned.  The
float literal `0.05f` is idealised as `1/20`; the reflection across the
normalised collision vector is computed by `getReflectedNormalized`, the
exact form of `getReflected (getNormalized collisionVec)` (see
`getReflectedNormalized_spec`). -/
def solvePaddleBallCollision (p : Paddle) (b : Ball) : Ball :=
  if isIntersecting p.bounds b.bounds then
    let newY := p.top - b.radius * 2
    let b1 : Ball := { b with y := newY }
    let velFactor := p.velocity.x * (1 / 20)
    let collisionVec : Vec2 ℚ := ⟨posFactorOf p b1 + velFactor, -2⟩
    { b1 with velocity := getReflectedNormalized b1.velocity collisionVec }
  else b

/-- The directional overlap `overlapLeft = ball.right - brick.left`
(line 297). -/
def overlapLeft (br : Brick) (b : Ball) : ℚ := b.right - br.left

/-- The directional overlap `overlapRight = brick.right - ball.left`
(line 298). -/
def overlapRight (br : Brick) (b : Ball) : ℚ := br.right - b.left

/-- The directional overlap `overlapTop = ball.bottom - brick.top`
(line 299). -/
def overlapTop (br : Brick) (b : Ball) : ℚ := b.bottom - br.top

/-- The directional overlap `overlapBottom = brick.bottom - ball.top`
(line 300). -/
def overlapBottom (br : Brick) (b : Ball) : ℚ := br.bottom - b.top

/-- `bFromLeft` (line 302): the ball came from the left side. -/
def bFromLeft (br : Brick) (b : Ball) : Prop :=
  |overlapLeft br b| < |overlapRight br b|

instance (br : Brick) (b : Ball) : Decidable (bFromLeft br b) := by
  unfold bFromLeft; infer_instance

/-- `bFromTop` (line 303): the ball came from above. -/
def bFromTop (br : Brick) (b : Ball) : Prop :=
  |overlapTop br b| < |overlapBottom br b|

instance (br : Brick) (b : Ball) : Decidable (bFromTop br b) := by
  unfold bFromTop; infer_instance

/-- `minOverlapX` (line 305): the smaller-magnitude horizontal overlap. -/
def minOverlapX (br : Brick) (b : Ball) : ℚ :=
  if bFromLeft br b then overlapLeft br b else overlapRight br b

/-- `minOverlapY` (line 306): the smaller-magnitude vertical overlap. -/
def minOverlapY (br : Brick) (b : Ball) : ℚ :=
  if bFromTop br b then overlapTop br b else overlapBottom br b

/-- Embeds `solveBrickBallCollision` (lines 288-312).  Both arguments are
mutable references in the source; the pair of updated values is returned. -/
def solveBrickBallCollision (br : Brick) (b : Ball) : Brick × Ball :=
  if isIntersecting br.bounds b.bounds then
    let hits := br.requiredHits - 1
    let br1 : Brick :=
      { br with requiredHits := hits,
                destroyed := if hits ≤ 0 then true else br.destroyed }
    let b1 : Ball :=
      if |minOverlapX br b| < |minOverlapY br b| then
        { b with velocity :=
            ⟨|b.velocity.x| * (if bFromLeft br b then -1 else 1), b.velocity.y⟩ }
      else
        { b with velocity :=
            ⟨b.velocity.x, |b.velocity.y| * (if bFromTop br b then -1 else 1)⟩ }
    (br1, b1)
  else (br, b)

/-- Iterated brick-ball resolution: `k` successive calls of
`solveBrickBallCollision` on the same brick-ball pair, threading both
mutated states. -/
def brickBallIter (br : Brick) (b : Ball) : ℕ → Brick × Ball
  | 0 => (br, b)
  | k + 1 =>
      let r := brickBallIter br b k
      solveBrickBallCollision r.1 r.2

/-- Instrumentation of the per-frame `forEach<Brick>` loop for one ball:
true when some call in the sequence resolves a collision (the pair
intersects) against a brick whose `requiredHits` is already at most 0 at
call time. -/
def anyLowHitResolved : Ball → List Brick → Bool
  | _, [] => false
  | b, br :: rest =>
      (decide (isIntersecting br.bounds b.bounds) && decide (br.requiredHits ≤ 0))
      || anyLowHitResolved (solveBrickBallCollision br b).2 rest

/-! ### The Manager registry (lines 59-124)

The registry owns entities (`std::vector<std::unique_ptr<Entity>>`) and
keeps a type-indexed map of non-owning pointers
(`std::map<std::size_t, std::vector<Entity*>>`).  For the registry claims
only the per-entity destroyed flag and the dynamic type matter, so an
entity is modelled as a kind tag plus the flag, a pointer as a numeric id,
and the map as a total function from kinds to id lists (`std::map`
`operator[]` creates missing buckets on demand, so an always-present empty
bucket is observationally identical). -/

/-- The three concrete entity types created by the game. -/
inductive EntityKind where
  | ball
  | paddle
  | brick
deriving DecidableEq

/-- The `Entity` base-class state the registry observes: dynamic type and
the `destroyed` flag. -/
structure EntityRec where
  kind : EntityKind
  destroyed : Bool
deriving DecidableEq

/-- The `Manager` state: the authoritative owning collection (ids paired
with entity records, in creation order) and the type-indexed buckets of
non-owning ids.  `nextId` models the allocator producing fresh
addresses. -/
structure Manager where
  entities : List (Nat × EntityRec)
  buckets : EntityKind → List Nat
  nextId : Nat

/-- A manager with no entities, as default-constructed. -/
def Manager.empty : Manager :=
  { entities := [], buckets := fun _ => [], nextId := 0 }

/-- Embeds `Manager::create` (lines 66-78): append a non-owning id to the
bucket of the type, and the owning record to the authoritative
collection. -/
def Manager.create (m : Manager) (k : EntityKind) : Manager :=
  { entities := m.entities ++ [(m.nextId, ⟨k, false⟩)]
    buckets := fun k' => if k' = k then m.buckets k' ++ [m.nextId] else m.buckets k'
    nextId := m.nextId + 1 }

/-- Pointer dereference: look an id up in the authoritative collection. -/
def Manager.lookupEntity (m : Manager) (i : Nat) : Option EntityRec :=
  (m.entities.find? (fun p => p.1 == i)).map Prod.snd

/-- The `mPtr->destroyed` read performed by `refresh` on a bucket entry. -/
def Manager.destroyedAt (m : Manager) (i : Nat) : Bool :=
  match m.lookupEntity i with
  | some e => e.destroyed
  | none => false

/-- Marking one entity destroyed (`entity.destroyed = true` through any
reference): only the flag of that entity changes, neither collection is
touched. -/
def Manager.setDestroyed (m : Manager) (i : Nat) : Manager :=
  { m with entities :=
      m.entities.map (fun p => if p.1 = i then (p.1, ⟨p.2.kind, true⟩) else p) }

/-- Embeds `Manager::refresh` (lines 80-96): erase-remove every destroyed
entity from each bucket (reading the flag through the pointer), then from
the authoritative collection.  `std::remove_if` followed by `erase` is a
stable in-place filter. -/
def Manager.refresh (m : Manager) : Manager :=
  { entities := m.entities.filter (fun p => !p.2.destroyed)
    buckets := fun k => (m.buckets k).filter (fun i => !m.destroyedAt i)
    nextId := m.nextId }

/-- Embeds `Manager::clear` (lines 98-102). -/
def Manager.clear (m : Manager) : Manager :=
  { m with entities := [], buckets := fun _ => [] }

/-- Embeds `Manager::getAll<T>` (lines 104-107): the bucket of the type. -/
def Manager.getAll (m : Manager) (k : EntityKind) : List Nat :=
  m.buckets k

/-- Registry well-formedness: every id in a bucket dereferences to an
entity of the bucket kind in the authoritative collection (the invariant
stated in section 3 of the design: every reference in the type index refers
to a live entity). -/
def Manager.WF (m : Manager) : Prop :=
  ∀ k : EntityKind, ∀ i ∈ m.buckets k,
    ∃ e, m.lookupEntity i = some e ∧ e.kind = k

/-! ### The Game (lines 314-479)

The per-frame world state as the manager holds it, grouped by type (the
game only ever iterates on a per-type bucket or over all entities, and no
per-frame step depends on the creation-order interleaving across types:
`Ball::update`, `Paddle::update` and `Brick::update` each touch only their
own entity). -/

/-- The entities alive in the manager, by type bucket, each list in
creation order. -/
structure World where
  balls : List Ball
  bricks : List Brick
  paddles : List Paddle
deriving DecidableEq

/-- Embeds `Game::State` (line 318). -/
inductive GState where
  | Paused
  | GameOver
  | InProgress
  | Victory
deriving DecidableEq

/-- A per-frame keyboard snapshot: the five keys `Game::run` and
`Paddle::processPlayerInput` poll. -/
structure Input where
  escape : Bool
  pauseKey : Bool
  restartKey : Bool
  leftKey : Bool
  rightKey : Bool
deriving DecidableEq

/-- The `Game` fields driving the state machine (window, font and text
objects are rendering-only and dropped). -/
structure Game where
  world : World
  state : GState
  pausePressedLastFrame : Bool
  remainingLives : ℤ
deriving DecidableEq

/-- Embeds the brick-grid population loop of `Game::restart`
(lines 369-383): for `iX` in `0..10`, for `iY` in `0..3`, a brick at
`(brkOffsetX + (iX+1)*(60+3), (iY+2)*(20+3))` with
`requiredHits = 1 + ((iX*iY) % 3)`. -/
def brickGrid : List Brick :=
  (List.range 11).flatMap (fun (iX : ℕ) =>
    (List.range 4).map (fun (iY : ℕ) =>
      let brick := Brick.create (22 + ((iX : ℚ) + 1) * (Brick.defWidth + 3))
        (((iY : ℚ) + 2) * (Brick.defHeight + 3))
      { brick with requiredHits := 1 + (((iX : ℤ) * (iY : ℤ)) % 3) }))

/-- Embeds `Game::restart` (lines 361-387): three lives, state `Paused`,
cleared manager repopulated with the brick grid, one ball at the window
center, one paddle at `(wndWidth / 2, wndHeight - 50)`. -/
def Game.restart (g : Game) : Game :=
  { g with remainingLives := 3,
           state := GState.Paused,
           world := { balls := [Ball.create (wndWidth / 2) (wndHeight / 2)],
                      bricks := brickGrid,
                      paddles := [Paddle.create (wndWidth / 2) (wndHeight - 50)] } }

/-- The input-handling prefix of each `Game::run` iteration
(lines 398-412): edge-triggered pause toggle, then restart on `R`. -/
def Game.handleInput (g : Game) (inp : Input) : Game :=
  let g1 :=
    if inp.pauseKey then
      if !g.pausePressedLastFrame then
        let st :=
          if g.state = GState.Paused then GState.InProgress
          else if g.state = GState.InProgress then GState.Paused
          else g.state
        { g with state := st, pausePressedLastFrame := true }
      else { g with pausePressedLastFrame := true }
    else { g with pausePressedLastFrame := false }
  if inp.restartKey then g1.restart else g1

/-- Embeds `Manager::update` (lines 116-119) restricted to the game world:
every entity sees exactly one update. -/
def World.update (inp : Input) (w : World) : World :=
  { balls := w.balls.map Ball.update
    bricks := w.bricks.map Brick.update
    paddles := w.paddles.map (Paddle.update inp.leftKey inp.rightKey) }

/-- The inner `forEach<Brick>` loop of `Game::run` (lines 454-457): one
ball resolved against every brick in bucket order, threading the mutated
ball. -/
def runBrickCollisions : Ball → List Brick → Ball × List Brick
  | b, [] => (b, [])
  | b, br :: rest =>
      let r := solveBrickBallCollision br b
      let s := runBrickCollisions r.2 rest
      (s.1, r.1 :: s.2)

/-- The inner `forEach<Paddle>` loop (lines 458-461): the paddle is a const
reference, only the ball changes. -/
def runPaddleCollisions (b : Ball) (ps : List Paddle) : Ball :=
  ps.foldl (fun acc p => solvePaddleBallCollision p acc) b

/-- The outer `forEach<Ball>` loop (lines 452-462): each ball against all
bricks, then against all paddles, threading the mutated bricks. -/
def resolveBalls : List Ball → List Brick → List Paddle → List Ball × List Brick
  | [], brs, _ => ([], brs)
  | b :: rest, brs, ps =>
      let r1 := runBrickCollisions b brs
      let b1 := runPaddleCollisions r1.1 ps
      let s := resolveBalls rest r1.2 ps
      (b1 :: s.1, s.2)

/-- The whole collision-resolution pass of one frame. -/
def World.collisions (w : World) : World :=
  let r := resolveBalls w.balls w.bricks w.paddles
  { w with balls := r.1, bricks := r.2 }

/-- Embeds `Manager::refresh` on the game world: destroyed entities are
removed from every bucket (stable filter). -/
def World.refresh (w : World) : World :=
  { balls := w.balls.filter (fun b => !b.destroyed)
    bricks := w.bricks.filter (fun b => !b.destroyed)
    paddles := w.paddles.filter (fun p => !p.destroyed) }

/-- The `InProgress` branch of `Game::run` (lines 428-474): respawn a ball
and consume a life when the ball bucket is empty, check victory, check game
over, then update, resolve collisions and refresh. -/
def Game.simulate (inp : Input) (g : Game) : Game :=
  let spawn := g.world.balls.isEmpty
  let w1 := if spawn then
      { g.world with balls := g.world.balls ++ [Ball.create (wndWidth / 2) (wndHeight / 2)] }
    else g.world
  let lives1 := if spawn then g.remainingLives - 1 else g.remainingLives
  let st1 := if w1.bricks.isEmpty then GState.Victory else g.state
  let st2 := if lives1 ≤ 0 then GState.GameOver else st1
  { g with world := ((w1.update inp).collisions).refresh,
           state := st2,
           remainingLives := lives1 }

/-- One full iteration of the `Game::run` loop (lines 391-477), rendering
dropped.  Returns `none` when `Escape` breaks out of the loop; otherwise
the new game state together with a flag recording whether the simulation
branch (entity update + collision resolution + refresh) executed. -/
def Game.frameStep (g : Game) (inp : Input) : Option (Game × Bool) :=
  if inp.escape then none
  else
    let g1 := g.handleInput inp
    if g1.state = GState.InProgress then some (g1.simulate inp, true)
    else some (g1, false)

/-! ## Theorems -/

/-! ### Vector math: the rational reflection form is the source computation -/

theorem getLength_sq (c : Vec2 ℝ) (h : 0 ≤ c.x ^ 2 + c.y ^ 2) :
    getLength c ^ 2 = c.x ^ 2 + c.y ^ 2 := by
  simpa [getLength] using Real.sq_sqrt h

/-- Over the reals, reflecting across the normalisation of a nonzero vector
`c` equals the exact rational-form expression: the square root introduced by
`getNormalized` cancels out. -/
theorem getReflected_getNormalized_eq (v c : Vec2 ℝ)
    (hc : getDotProduct c c ≠ 0) :
    getReflected v (getNormalized c) =
      ⟨v.x - c.x * (2 * getDotProduct v c / getDotProduct c c),
       v.y - c.y * (2 * getDotProduct v c / getDotProduct c c)⟩ := by
  have hs : 0 < c.x ^ 2 + c.y ^ 2 := by
    rcases lt_or_eq_of_le (by positivity : (0:ℝ) ≤ c.x ^ 2 + c.y ^ 2) with h | h
    · exact h
    · exfalso; apply hc; simp only [getDotProduct]; nlinarith
  have hL2 : getLength c ^ 2 = c.x ^ 2 + c.y ^ 2 := getLength_sq c (le_of_lt hs)
  have hL : 0 < getLength c := by
    have := Real.sqrt_pos.mpr hs
    simpa [getLength] using this
  have hLne : getLength c ≠ 0 := ne_of_gt hL
  have hLL : getLength c * getLength c = c.x * c.x + c.y * c.y := by
    have h := hL2
    rw [pow_two, pow_two, pow_two] at h
    linarith
  have hcomp : ∀ a : ℝ,
      a / getLength c *
        (2 * (v.x * (c.x / getLength c) + v.y * (c.y / getLength c))) =
      a * (2 * (v.x * c.x + v.y * c.y) / (c.x * c.x + c.y * c.y)) := by
    intro a
    rw [← hLL]
    field_simp
  simp only [getReflected, getNormalized, getDotProduct, Vec2.mk.injEq]
  exact ⟨by rw [hcomp], by rw [hcomp]⟩

/-- The rational-form reflection agrees with the real computation done by
the source (`getReflected` after `getNormalized`) for every nonzero
collision vector. -/
theorem getReflectedNormalized_spec (v c : Vec2 ℚ)
    (hc : getDotProduct c c ≠ 0) :
    vecCast (getReflectedNormalized v c) =
      getReflected (vecCast v) (getNormalized (vecCast c)) := by
  have hc' : getDotProduct (vecCast c) (vecCast c) ≠ 0 := by
    simp only [getDotProduct, vecCast]
    intro h
    apply hc
    have : ((c.x * c.x + c.y * c.y : ℚ) : ℝ) = 0 := by push_cast; linarith
    exact_mod_cast this
  rw [getReflected_getNormalized_eq _ _ hc']
  simp only [getReflectedNormalized, vecCast, getDotProduct, Vec2.mk.injEq]
  constructor <;> push_cast <;> ring

/-! ### C9: symmetry of the intersection test -/

theorem isIntersecting_comm (a b : Bounds) :
    isIntersecting a b ↔ isIntersecting b a := by
  unfold isIntersecting
  constructor <;> rintro ⟨h1, h2, h3, h4⟩ <;> exact ⟨h2, h1, h4, h3⟩

/-- C9: the intersection test is symmetric: for all shape pairs A, B
(rectangle or circle), intersects(A, B) equals intersects(B, A). -/
theorem intersects_symmetric (s t : Shape) :
    intersectsShape s t ↔ intersectsShape t s :=
  isIntersecting_comm s.bounds t.bounds

/-! ### C3: paddle clamping at the field edges -/

/-- C3: the claim that a paddle inside the field bounds can never be driven
outside them by one update is refuted by the code: with the paddle at
x = 40 (left edge 2.5, inside the field), the guard `left() > 0` still
allows a move-left step of `defVelocity = 8`, and the post-update left edge
is -11/2 < 0.  The code contradicts its own stated intent (p04.cpp: no
velocity change is applied if it could push the paddle out of the window),
so this is a bug in the code, not in the claim. -/
theorem paddle_escapes_left_field :
    (Paddle.create 40 550).left ≥ 0 ∧
    (Paddle.create 40 550).right ≤ wndWidth ∧
    ((Paddle.create 40 550).update true false).left = -(11/2) ∧
    ¬ (((Paddle.create 40 550).update true false).left ≥ 0) := by
  norm_num [Paddle.create, Paddle.update, Paddle.processPlayerInput,
    Paddle.left, Paddle.right, Paddle.defWidth, Paddle.defHeight,
    Paddle.defVelocity, wndWidth]

/-! ### C4: ball bottom exit -/

/-- A ball about to leave the field through the bottom-left corner. -/
def ballCorner : Ball :=
  { x := 5, y := 595, radius := 10, velocity := ⟨-8, 8⟩, destroyed := false }

/-- C4 counterexample: a ball that crosses the bottom bound and a side
bound in the same update is destroyed, but its velocity does not stay
unmodified: the horizontal component is still reflected.  This refutes the
claim that the update leaves both velocity components unmodified for every
ball whose bottom edge exceeds the field height after the update. -/
theorem ball_bottom_exit_cex :
    (ballCorner.move).bottom > wndHeight ∧
    (Ball.update ballCorner).destroyed = true ∧
    (Ball.update ballCorner).velocity ≠ ballCorner.velocity := by
  refine ⟨by norm_num [ballCorner, Ball.move, Ball.bottom, wndHeight], ?_, ?_⟩ <;>
    norm_num [ballCorner, Ball.update, Ball.move, Ball.solveBoundCollisions,
      Ball.bottom, Ball.top, Ball.left, Ball.right, wndWidth, wndHeight,
      Vec2.mk.injEq]

/-- C4 amended: when the moved ball crosses the bottom bound and not the
top bound, the update sets `destroyed = true` and leaves `velocity.y`
unmodified (no vertical reflection); `velocity.x` is also unmodified
provided the ball does not simultaneously cross a side bound (otherwise it
is reflected as usual). -/
theorem ball_bottom_exit (b : Ball)
    (hb : (b.move).bottom > wndHeight) (ht : ¬ (b.move).top < 0) :
    (Ball.update b).destroyed = true ∧
    (Ball.update b).velocity.y = b.velocity.y ∧
    (¬ ((b.move).left < 0 ∨ (b.move).right > wndWidth) →
      (Ball.update b).velocity.x = b.velocity.x) := by
  unfold Ball.update Ball.solveBoundCollisions
  by_cases hside : (b.move).left < 0 ∨ (b.move).right > wndWidth
  · rw [if_pos hside]
    simp only [Ball.top, Ball.bottom] at ht hb ⊢
    rw [if_neg ht, if_pos hb]
    exact ⟨rfl, rfl, fun hc => absurd hside hc⟩
  · rw [if_neg hside]
    simp only [Ball.top, Ball.bottom] at ht hb ⊢
    rw [if_neg ht, if_pos hb]
    exact ⟨rfl, rfl, fun _ => rfl⟩

/-- A ball exiting straight through the bottom bound. -/
def ballBottomW : Ball :=
  { x := 400, y := 595, radius := 10, velocity := ⟨0, 8⟩, destroyed := false }

theorem ball_bottom_exit_witness :
    ((ballBottomW.move).bottom > wndHeight ∧ ¬ (ballBottomW.move).top < 0) ∧
    ((Ball.update ballBottomW).destroyed = true ∧
     (Ball.update ballBottomW).velocity.y = ballBottomW.velocity.y ∧
     (¬ ((ballBottomW.move).left < 0 ∨ (ballBottomW.move).right > wndWidth) →
       (Ball.update ballBottomW).velocity.x = ballBottomW.velocity.x)) := by
  have hb : (ballBottomW.move).bottom > wndHeight := by
    norm_num [ballBottomW, Ball.move, Ball.bottom, wndHeight]
  have ht : ¬ (ballBottomW.move).top < 0 := by
    norm_num [ballBottomW, Ball.move, Ball.top]
  exact ⟨⟨hb, ht⟩, ball_bottom_exit ballBottomW hb ht⟩

/-! ### C5: axis selection of the brick bounce -/

/-- C5: on an intersecting brick-ball pair exactly one velocity component
is written, selected by the strict comparison of the magnitudes of the two
minimal directional overlaps; the horizontal branch forces the sign of
`velocity.x` away from the impact side, the vertical branch (also taken on
equal magnitudes) forces the sign of `velocity.y` away from the impact
side. -/
theorem brick_bounce_axis (br : Brick) (b : Ball)
    (h : isIntersecting br.bounds b.bounds) :
    if |minOverlapX br b| < |minOverlapY br b| then
      (solveBrickBallCollision br b).2.velocity.y = b.velocity.y ∧
      (solveBrickBallCollision br b).2.velocity.x =
        |b.velocity.x| * (if bFromLeft br b then -1 else 1)
    else
      (solveBrickBallCollision br b).2.velocity.x = b.velocity.x ∧
      (solveBrickBallCollision br b).2.velocity.y =
        |b.velocity.y| * (if bFromTop br b then -1 else 1) := by
  by_cases hx : |minOverlapX br b| < |minOverlapY br b|
  · rw [if_pos hx]
    unfold solveBrickBallCollision
    rw [if_pos h]
    dsimp only
    rw [if_pos hx]
    exact ⟨rfl, rfl⟩
  · rw [if_neg hx]
    unfold solveBrickBallCollision
    rw [if_pos h]
    dsimp only
    rw [if_neg hx]
    exact ⟨rfl, rfl⟩

/-- A brick at the center of the field. -/
def brickW : Brick := Brick.create 400 300

/-- A ball touching the left edge of `brickW`. -/
def ballHitW : Ball := Ball.create 360 300

theorem brick_bounce_axis_witness :
    isIntersecting brickW.bounds ballHitW.bounds ∧
    (if |minOverlapX brickW ballHitW| < |minOverlapY brickW ballHitW| then
      (solveBrickBallCollision brickW ballHitW).2.velocity.y = ballHitW.velocity.y ∧
      (solveBrickBallCollision brickW ballHitW).2.velocity.x =
        |ballHitW.velocity.x| * (if bFromLeft brickW ballHitW then -1 else 1)
    else
      (solveBrickBallCollision brickW ballHitW).2.velocity.x = ballHitW.velocity.x ∧
      (solveBrickBallCollision brickW ballHitW).2.velocity.y =
        |ballHitW.velocity.y| * (if bFromTop brickW ballHitW then -1 else 1)) := by
  have h : isIntersecting brickW.bounds ballHitW.bounds := by
    norm_num [isIntersecting, brickW, ballHitW, Brick.create, Ball.create,
      Brick.bounds, Ball.bounds, Brick.left, Brick.right, Brick.top,
      Brick.bottom, Ball.left, Ball.right, Ball.top, Ball.bottom,
      Brick.defWidth, Brick.defHeight, Ball.defRadius]
  exact ⟨h, brick_bounce_axis brickW ballHitW h⟩

/-! ### C2: brick durability -/

theorem solveBrickBall_fst_bounds (br : Brick) (b : Ball) :
    (solveBrickBallCollision br b).1.bounds = br.bounds := by
  unfold solveBrickBallCollision
  split <;> rfl

theorem solveBrickBall_snd_bounds (br : Brick) (b : Ball) :
    (solveBrickBallCollision br b).2.bounds = b.bounds := by
  unfold solveBrickBallCollision
  dsimp only
  split
  · split <;> split <;> rfl
  · rfl

theorem solveBrickBall_snd_destroyed (br : Brick) (b : Ball) :
    (solveBrickBallCollision br b).2.destroyed = b.destroyed := by
  unfold solveBrickBallCollision
  dsimp only
  split
  · split <;> split <;> rfl
  · rfl

theorem solveBrickBall_hit (br : Brick) (b : Ball)
    (h : isIntersecting br.bounds b.bounds) :
    (solveBrickBallCollision br b).1.requiredHits = br.requiredHits - 1 ∧
    (solveBrickBallCollision br b).1.destroyed =
      (if br.requiredHits - 1 ≤ 0 then true else br.destroyed) := by
  unfold solveBrickBallCollision
  rw [if_pos h]
  exact ⟨rfl, rfl⟩

theorem brickBallIter_props (br : Brick) (b : Ball)
    (h : isIntersecting br.bounds b.bounds) :
    ∀ k : ℕ,
      (brickBallIter br b k).1.bounds = br.bounds ∧
      (brickBallIter br b k).2.bounds = b.bounds ∧
      (brickBallIter br b k).1.requiredHits = br.requiredHits - k ∧
      (brickBallIter br b k).2.destroyed = b.destroyed ∧
      (brickBallIter br b k).1.destroyed =
        (br.destroyed || (decide (1 ≤ k) && decide (br.requiredHits ≤ (k : ℤ)))) := by
  intro k
  induction k with
  | zero =>
      refine ⟨rfl, rfl, by simp [brickBallIter], rfl, ?_⟩
      simp [brickBallIter]
  | succ k ih =>
      obtain ⟨hb1, hb2, hreq, hbd, hdes⟩ := ih
      have hint : isIntersecting (brickBallIter br b k).1.bounds
          (brickBallIter br b k).2.bounds := by rw [hb1, hb2]; exact h
      have step : brickBallIter br b (k + 1) =
          solveBrickBallCollision (brickBallIter br b k).1 (brickBallIter br b k).2 := rfl
      obtain ⟨sreq, sdes⟩ := solveBrickBall_hit _ _ hint
      refine ⟨?_, ?_, ?_, ?_, ?_⟩
      · rw [step, solveBrickBall_fst_bounds, hb1]
      · rw [step, solveBrickBall_snd_bounds, hb2]
      · rw [step, sreq, hreq]; push_cast; ring
      · rw [step, solveBrickBall_snd_destroyed, hbd]
      · rw [step, sdes, hreq, hdes]
        by_cases hc : br.requiredHits - (k : ℤ) - 1 ≤ 0
        · rw [if_pos hc]
          have : decide (1 ≤ k + 1) = true := by simp
          have h2 : decide (br.requiredHits ≤ ((k + 1 : ℕ) : ℤ)) = true := by
            simp only [decide_eq_true_eq]; push_cast; omega
          rw [h2]; simp
        · rw [if_neg hc]
          have h2 : decide (br.requiredHits ≤ ((k + 1 : ℕ) : ℤ)) = false := by
            simp only [decide_eq_false_iff_not]; push_cast; omega
          have h3 : decide (br.requiredHits ≤ (k : ℤ)) = false := by
            simp only [decide_eq_false_iff_not]; omega
          rw [h2, h3]; simp

theorem anyLowHitResolved_false (brs : List Brick) :
    ∀ ba : Ball, (∀ x ∈ brs, 1 ≤ x.requiredHits) →
      anyLowHitResolved ba brs = false := by
  induction brs with
  | nil => intro ba _; rfl
  | cons br rest ih =>
      intro ba hall
      unfold anyLowHitResolved
      have h1 : decide (br.requiredHits ≤ 0) = false := by
        have := hall br (List.mem_cons_self br rest)
        simp only [decide_eq_false_iff_not]; omega
      rw [h1, Bool.and_false, Bool.false_or]
      exact ih _ (fun x hx => hall x (List.mem_cons_of_mem _ hx))

/-- C2: a brick holding `requiredHits = N ≥ 1` becomes destroyed after
exactly N intersecting calls of `solveBrickBallCollision` (the first N-1
leave it alive); within one per-frame resolution pass over bricks that all
hold `requiredHits ≥ 1` (the post-refresh invariant, each brick visited
once), no collision is ever resolved against a brick whose `requiredHits`
is already ≤ 0; and the function never writes the destroyed flag of the
ball. -/
theorem brick_durability (br : Brick) (b : Ball) (N : ℤ) (ba : Ball)
    (brs : List Brick)
    (hN : br.requiredHits = N) (h1 : 1 ≤ N) (hd : br.destroyed = false)
    (h : isIntersecting br.bounds b.bounds)
    (hall : ∀ x ∈ brs, 1 ≤ x.requiredHits) :
    (brickBallIter br b N.toNat).1.destroyed = true ∧
    (∀ k : ℕ, (k : ℤ) < N → (brickBallIter br b k).1.destroyed = false) ∧
    anyLowHitResolved ba brs = false ∧
    (∀ br2 b2, (solveBrickBallCollision br2 b2).2.destroyed = b2.destroyed) := by
  refine ⟨?_, ?_, anyLowHitResolved_false brs ba hall, fun br2 b2 => solveBrickBall_snd_destroyed br2 b2⟩
  · have := (brickBallIter_props br b h N.toNat).2.2.2.2
    rw [this, hd, hN]
    have e1 : decide (1 ≤ N.toNat) = true := by
      simp only [decide_eq_true_eq]; omega
    have e2 : decide (N ≤ (N.toNat : ℤ)) = true := by
      simp only [decide_eq_true_eq]; omega
    rw [e1, e2]; rfl
  · intro k hk
    have := (brickBallIter_props br b h k).2.2.2.2
    rw [this, hd, hN]
    have e2 : decide (N ≤ (k : ℤ)) = false := by
      simp only [decide_eq_false_iff_not]; omega
    rw [e2]; simp

/-- A brick that takes two hits. -/
def brickDurW : Brick := { Brick.create 400 300 with requiredHits := 2 }

theorem brick_durability_witness :
    (brickDurW.requiredHits = 2 ∧ (1:ℤ) ≤ 2 ∧ brickDurW.destroyed = false ∧
     isIntersecting brickDurW.bounds ballHitW.bounds ∧
     (∀ x ∈ [brickDurW], 1 ≤ x.requiredHits)) ∧
    ((brickBallIter brickDurW ballHitW (2:ℤ).toNat).1.destroyed = true ∧
     (∀ k : ℕ, (k : ℤ) < 2 → (brickBallIter brickDurW ballHitW k).1.destroyed = false) ∧
     anyLowHitResolved ballHitW [brickDurW] = false ∧
     (∀ br2 b2, (solveBrickBallCollision br2 b2).2.destroyed = b2.destroyed)) := by
  have hN : brickDurW.requiredHits = 2 := rfl
  have h1 : (1:ℤ) ≤ 2 := by norm_num
  have hd : brickDurW.destroyed = false := rfl
  have h : isIntersecting brickDurW.bounds ballHitW.bounds := by
    norm_num [isIntersecting, brickDurW, ballHitW, Brick.create, Ball.create,
      Brick.bounds, Ball.bounds, Brick.left, Brick.right, Brick.top,
      Brick.bottom, Ball.left, Ball.right, Ball.top, Ball.bottom,
      Brick.defWidth, Brick.defHeight, Ball.defRadius]
  have hall : ∀ x ∈ [brickDurW], 1 ≤ x.requiredHits := by
    intro x hx
    simp only [List.mem_singleton] at hx
    rw [hx]; norm_num [brickDurW]
  exact ⟨⟨hN, h1, hd, h, hall⟩,
    brick_durability brickDurW ballHitW 2 ballHitW [brickDurW] hN h1 hd h hall⟩

/-! ### C7: range of posFactor -/

/-- A paddle at the usual play position. -/
def paddleC7 : Paddle := Paddle.create 400 550

/-- A ball whose center is right of the paddle right edge but whose
bounding box still intersects the paddle. -/
def ballC7 : Ball := Ball.create (895/2) 545

/-- C7: the claim that `posFactor` always lies in [-0.5, 0.5] for
intersecting pairs is refuted: the AABB test also accepts balls whose
center lies beyond the paddle edge (up to radius away), where
`posFactor = (width/2 + radius)/width = 19/30 > 1/2`.  The code comment in
p05.cpp states the intended range -0.5 to +0.5, so the claim captures the
documented intent and the code violates it: a bug in the code. -/
theorem posFactor_out_of_range :
    isIntersecting paddleC7.bounds ballC7.bounds ∧
    posFactorOf paddleC7 ballC7 = 19/30 ∧
    ¬ (-(1/2) ≤ posFactorOf paddleC7 ballC7 ∧ posFactorOf paddleC7 ballC7 ≤ 1/2) := by
  norm_num [isIntersecting, posFactorOf, paddleC7, ballC7, Paddle.create,
    Ball.create, Paddle.bounds, Ball.bounds, Paddle.left, Paddle.right,
    Paddle.top, Paddle.bottom, Ball.left, Ball.right, Ball.top, Ball.bottom,
    Paddle.defWidth, Paddle.defHeight, Ball.defRadius]

/-! ### C6: direction of the paddle bounce -/

/-- A paddle moving right at its default speed. -/
def paddleC6 : Paddle := { Paddle.create 400 550 with velocity := ⟨8, 0⟩ }

/-- A ball moving down-right, centered on the paddle right corner (its
center is on the paddle, `posFactor = 1/2`). -/
def ballC6 : Ball := { Ball.create (875/2) 545 with velocity := ⟨8, 8⟩ }

/-- C6: the claim that the resolved ball always leaves with a strictly
upward vertical velocity is refuted: with the ball center still on the
paddle (`posFactor = 1/2`), paddle velocity 8 (its default speed) and
incoming ball velocity (8, 8) (a reachable speed: components are ±8 until
the first paddle bounce), the reflected velocity has
`velocity.y = 328/481 > 0`, i.e. the ball keeps moving downward.  The code
comments (p05.cpp) state the resolution pushes the ball upward, so the
claim captures the documented intent and the code violates it. -/
theorem paddle_bounce_not_upward :
    isIntersecting paddleC6.bounds ballC6.bounds ∧
    (solvePaddleBallCollision paddleC6 ballC6).velocity.y = 328/481 ∧
    ¬ ((solvePaddleBallCollision paddleC6 ballC6).velocity.y < 0) := by
  norm_num [isIntersecting, solvePaddleBallCollision, getReflectedNormalized,
    getDotProduct, posFactorOf, paddleC6, ballC6, Paddle.create, Ball.create,
    Paddle.bounds, Ball.bounds, Paddle.left, Paddle.right, Paddle.top,
    Paddle.bottom, Ball.left, Ball.right, Ball.top, Ball.bottom,
    Paddle.defWidth, Paddle.defHeight, Ball.defRadius]

/-! ### C1: destruction deferral in the registry -/

theorem find?_filter_not_destroyed (l : List (Nat × EntityRec)) (j : ℕ)
    (q : Nat × EntityRec)
    (h : l.find? (fun p => p.1 == j) = some q) (hq : q.2.destroyed = false) :
    (l.filter (fun p => !p.2.destroyed)).find? (fun p => p.1 == j) = some q := by
  induction l with
  | nil => simp at h
  | cons a l ih =>
      by_cases ha : (a.1 == j : Bool)
      · rw [List.find?_cons_of_pos (p := fun (x : ℕ × EntityRec) => x.1 == j) _ ha] at h
        have hqa : q = a := by injection h with h'; exact h'.symm
        subst hqa
        rw [List.filter_cons_of_pos (p := fun (x : ℕ × EntityRec) => !x.2.destroyed) (by simp [hq])]
        rw [List.find?_cons_of_pos (p := fun (x : ℕ × EntityRec) => x.1 == j) _ ha]
      · rw [List.find?_cons_of_neg (p := fun (x : ℕ × EntityRec) => x.1 == j) _ (by simpa using ha)] at h
        by_cases hd : (!a.2.destroyed : Bool)
        · rw [List.filter_cons_of_pos (p := fun (x : ℕ × EntityRec) => !x.2.destroyed) hd,
            List.find?_cons_of_neg (p := fun (x : ℕ × EntityRec) => x.1 == j) _ (by simpa using ha)]
          exact ih h
        · rw [List.filter_cons_of_neg (p := fun (x : ℕ × EntityRec) => !x.2.destroyed) (by simpa using hd)]
          exact ih h

/-- C1: marking an entity destroyed leaves the length of every `getAll`
bucket unchanged (the flag write touches no collection); after `refresh`,
no destroyed entity remains in the authoritative collection and every id
left in a bucket dereferences to a live (non-destroyed) entity; and
`refresh` keeps every surviving (non-destroyed) entity and preserves the
relative order of survivors in both the authoritative collection and the
buckets (the results are sublists of the originals containing all
survivors). -/
theorem destruction_deferral (m : Manager) (k : EntityKind) (i : ℕ)
    (hwf : m.WF) :
    ((m.setDestroyed i).getAll k).length = (m.getAll k).length ∧
    (∀ p ∈ m.refresh.entities, p.2.destroyed = false) ∧
    (∀ j ∈ m.refresh.getAll k,
      ∃ e, m.refresh.lookupEntity j = some e ∧ e.destroyed = false) ∧
    m.refresh.entities.Sublist m.entities ∧
    (m.refresh.getAll k).Sublist (m.getAll k) ∧
    (∀ p ∈ m.entities, p.2.destroyed = false → p ∈ m.refresh.entities) ∧
    (∀ j ∈ m.getAll k, m.destroyedAt j = false → j ∈ m.refresh.getAll k) := by
  refine ⟨rfl, ?_, ?_, ?_, ?_, ?_, ?_⟩
  · intro p hp
    have := List.of_mem_filter hp
    simpa using this
  · intro j hj
    have hj1 : j ∈ m.buckets k := List.mem_of_mem_filter hj
    have hj2 := List.of_mem_filter hj
    obtain ⟨e, he, _⟩ := hwf k j hj1
    have hde : e.destroyed = false := by
      have hda : m.destroyedAt j = e.destroyed := by
        unfold Manager.destroyedAt
        rw [he]
      rw [hda] at hj2
      simpa using hj2
    refine ⟨e, ?_, hde⟩
    unfold Manager.lookupEntity at he ⊢
    obtain ⟨q, hq, hqe⟩ := Option.map_eq_some'.mp he
    have hfilter := find?_filter_not_destroyed m.entities j q hq (by rw [hqe]; exact hde)
    show ((m.entities.filter (fun p => !p.2.destroyed)).find?
      (fun p => p.1 == j)).map Prod.snd = some e
    rw [hfilter]
    simpa using hqe
  · exact List.filter_sublist _
  · exact List.filter_sublist _
  · intro p hp hd
    exact List.mem_filter.mpr ⟨hp, by simp [hd]⟩
  · intro j hj hd
    exact List.mem_filter.mpr ⟨hj, by simp [hd]⟩

/-- A registry holding a ball (marked destroyed) and a brick. -/
def managerW : Manager :=
  ((Manager.empty.create EntityKind.ball).create EntityKind.brick).setDestroyed 0

theorem destruction_deferral_witness :
    managerW.WF ∧
    (((managerW.setDestroyed 0).getAll EntityKind.ball).length =
        (managerW.getAll EntityKind.ball).length ∧
     (∀ p ∈ managerW.refresh.entities, p.2.destroyed = false) ∧
     (∀ j ∈ managerW.refresh.getAll EntityKind.ball,
       ∃ e, managerW.refresh.lookupEntity j = some e ∧ e.destroyed = false) ∧
     managerW.refresh.entities.Sublist managerW.entities ∧
     (managerW.refresh.getAll EntityKind.ball).Sublist
       (managerW.getAll EntityKind.ball) ∧
     (∀ p ∈ managerW.entities, p.2.destroyed = false →
       p ∈ managerW.refresh.entities) ∧
     (∀ j ∈ managerW.getAll EntityKind.ball, managerW.destroyedAt j = false →
       j ∈ managerW.refresh.getAll EntityKind.ball)) := by
  have hwf : managerW.WF := by
    intro k i hi
    cases k with
    | ball =>
        simp only [managerW, Manager.setDestroyed, Manager.create,
          Manager.empty, List.nil_append] at hi ⊢
        simp at hi
        subst hi
        exact ⟨⟨EntityKind.ball, true⟩, by decide, rfl⟩
    | paddle =>
        simp only [managerW, Manager.setDestroyed, Manager.create,
          Manager.empty] at hi
        simp at hi
    | brick =>
        simp only [managerW, Manager.setDestroyed, Manager.create,
          Manager.empty, List.nil_append] at hi ⊢
        simp at hi
        subst hi
        exact ⟨⟨EntityKind.brick, false⟩, by decide, rfl⟩
  exact ⟨hwf, destruction_deferral managerW EntityKind.ball 0 hwf⟩

/-! ### C8: simulation runs only in InProgress -/

/-- C8: in every completed frame of the game loop, the simulation branch
(entity updates, collision resolution, refresh) runs exactly when the state
after input handling is `InProgress`; in any other state the frame leaves
the game exactly as input handling produced it, so no entity update and no
collision resolution happens. -/
theorem simulation_only_in_progress (g : Game) (inp : Input) (g' : Game)
    (s : Bool) (h : g.frameStep inp = some (g', s)) :
    (s = true ↔ (g.handleInput inp).state = GState.InProgress) ∧
    (s = false → g' = g.handleInput inp) ∧
    (s = true → g' = (g.handleInput inp).simulate inp) := by
  unfold Game.frameStep at h
  by_cases he : inp.escape
  · rw [if_pos he] at h
    exact absurd h (by simp)
  · rw [if_neg he] at h
    dsimp only at h
    by_cases hs : (g.handleInput inp).state = GState.InProgress
    · rw [if_pos hs] at h
      simp only [Option.some.injEq, Prod.mk.injEq] at h
      obtain ⟨hg', hsim⟩ := h
      subst hg'
      subst hsim
      exact ⟨⟨fun _ => hs, fun _ => rfl⟩, by simp, fun _ => rfl⟩
    · rw [if_neg hs] at h
      simp only [Option.some.injEq, Prod.mk.injEq] at h
      obtain ⟨hg', hsim⟩ := h
      subst hg'
      subst hsim
      exact ⟨⟨by simp, fun hc => absurd hc hs⟩, fun _ => rfl, by simp⟩

/-- A paused game with an empty world. -/
def gameW : Game :=
  { world := { balls := [], bricks := [], paddles := [] },
    state := GState.Paused, pausePressedLastFrame := false,
    remainingLives := 3 }

/-- A frame with no key pressed. -/
def inputW : Input :=
  { escape := false, pauseKey := false, restartKey := false,
    leftKey := false, rightKey := false }

theorem simulation_only_in_progress_witness :
    gameW.frameStep inputW = some (gameW.handleInput inputW, false) ∧
    ((false = true ↔ (gameW.handleInput inputW).state = GState.InProgress) ∧
     (false = false → gameW.handleInput inputW = gameW.handleInput inputW) ∧
     (false = true →
       gameW.handleInput inputW = (gameW.handleInput inputW).simulate inputW)) := by
  have h : gameW.frameStep inputW = some (gameW.handleInput inputW, false) := rfl
  exact ⟨h, simulation_only_in_progress gameW inputW _ false h⟩

/-! ### C10: GameOver and Victory are left only through restart -/

/-- C10: from `GameOver` or `Victory`, a completed frame never changes the
state through the pause toggle (which only moves between `Paused` and
`InProgress`): the state stays the same unless the restart key is pressed,
in which case it becomes `Paused`; and the simulation branch never runs in
such a frame. -/
theorem terminal_states_absorbing (g : Game) (inp : Input) (g' : Game)
    (s : Bool)
    (hg : g.state = GState.GameOver ∨ g.state = GState.Victory)
    (h : g.frameStep inp = some (g', s)) :
    g'.state = (if inp.restartKey then GState.Paused else g.state) ∧
    s = false := by
  have hstate : (g.handleInput inp).state =
      (if inp.restartKey then GState.Paused else g.state) := by
    unfold Game.handleInput
    rcases hg with hg | hg <;>
      by_cases hp : inp.pauseKey <;> by_cases hr : inp.restartKey <;>
      by_cases hq : g.pausePressedLastFrame <;>
      simp [hp, hr, hq, hg, Game.restart]
  have hni : (g.handleInput inp).state ≠ GState.InProgress := by
    rw [hstate]
    rcases hg with hg | hg <;> by_cases hr : inp.restartKey <;>
      simp [hr, hg]
  unfold Game.frameStep at h
  by_cases he : inp.escape
  · rw [if_pos he] at h
    exact absurd h (by simp)
  · rw [if_neg he] at h
    dsimp only at h
    rw [if_neg hni] at h
    simp only [Option.some.injEq, Prod.mk.injEq] at h
    obtain ⟨hg', hsim⟩ := h
    subst hg'
    subst hsim
    exact ⟨hstate, rfl⟩

/-- A game in the GameOver state with an empty world. -/
def gameOverW : Game := { gameW with state := GState.GameOver }

/-- A frame pressing only the restart key. -/
def inputRestartW : Input := { inputW with restartKey := true }

theorem terminal_states_absorbing_witness :
    ((gameOverW.state = GState.GameOver ∨ gameOverW.state = GState.Victory) ∧
     gameOverW.frameStep inputRestartW =
       some (gameOverW.handleInput inputRestartW, false)) ∧
    ((gameOverW.handleInput inputRestartW).state =
       (if inputRestartW.restartKey then GState.Paused else gameOverW.state) ∧
     false = false) := by
  have hg : gameOverW.state = GState.GameOver ∨ gameOverW.state = GState.Victory :=
    Or.inl rfl
  have h : gameOverW.frameStep inputRestartW =
      some (gameOverW.handleInput inputRestartW, false) := rfl
  exact ⟨⟨hg, h⟩, terminal_states_absorbing gameOverW inputRestartW _ false hg h⟩

end Arkanoid
